import Mathlib

/-!
Shallow embedding of the `ts-fibers` repository (src/index.ts): the `Fibers`
bounded-concurrency execution engine, its advance step (`next`), the lifecycle
settlement helpers, the `Symbol.asyncIterator` / `throw` / `return` protocol
methods, the `start`/`stop` background guards, the `for`/`forEach` constructors
and the cancellable `delay` helper.

Modelling conventions:
* JS promises produced by task factories ("units of work") are `FiberTask`
  values carrying an identity (`tid`) and the outcome they settle with.
  Promise settlement timing is left to the host scheduler, which is modelled
  by an explicit oracle (`List Nat`): at each `Promise.race` over the running
  pool with no already-settled member, the oracle picks which in-flight pool
  member settles next.  When a task settles, its `finally` observer appends it
  to the finished pool (the code's spin-yield waits exactly for that insertion,
  so the two events are modelled together).
* JS `Set` iteration order is insertion order; both pools are modelled as
  lists with `Set.add` = append-if-absent and `Set.delete` = `List.erase`.
* The lifecycle promise is `promiseState` plus the `_isResolvedOrRejected`
  guard flag, exactly as in the source.  The scenario anticipated by the
  source's `catch (other)` in `_raiseErrorAndCleanup` — the settlement call
  itself throwing — is modelled by `rejectThrows`: invoking the stored reject
  callback settles the handle and then raises the stored error.
* `ranCount` counts factory invocations and `discardedRejections` records
  rejections of internal promises the source never awaits (the fire-and-forget
  `this._raiseErrorAndCleanup(error)` call in `next`).  Both are observation
  instrumentation; they influence no control flow.
* `generator[Symbol.dispose]()` in `_cleanup` closes the work source, so a
  disposed generator yields nothing: modelled by emptying the remaining list.
-/

namespace TsFibers

/-- JavaScript error values, as far as the engine distinguishes them.
`AggregateError` is only ever built by the source with exactly two members. -/
inductive JsError where
  | fiberError (message : String)
  | aggregateError (first second : JsError)
  | abortError
  | genericError (tag : Nat)
deriving DecidableEq, Repr

/-- How a unit of work (a task promise) settles. -/
inductive TaskOutcome where
  | fulfilled (v : Nat)
  | rejectedWith (e : JsError)
deriving DecidableEq, Repr

/-- A started unit of work: a task promise with its identity (`tid`) and the
outcome it settles with.  Identity matters (pool key), mirroring promise
identity in the source; distinct instantiations carry distinct `tid`s. -/
structure FiberTask where
  tid : Nat
  outcome : TaskOutcome
deriving DecidableEq, Repr

/-- Behaviour of `nextItem.factory(nextItem.source)` for one descriptor pulled
from the work source: the factory either throws synchronously or returns a
fresh task promise. -/
inductive FactoryBehavior where
  | throws (e : JsError)
  | returns (t : FiberTask)
deriving DecidableEq, Repr

/-- Result of the caller-supplied error handler: `'stop' | 'skip' | 'default'`
(`dflt` stands for the string `'default'`). -/
inductive HandlerResult where
  | stop
  | skip
  | dflt
deriving DecidableEq, Repr

/-- Settlement state of the lifecycle promise (`_fibersPromise`). -/
inductive PromiseState where
  | pending
  | resolved
  | rejected (e : JsError)
deriving DecidableEq, Repr

/-- State of a `Fibers` engine instance: the two pools, the remaining work
source, and the private flags of the class, plus the scheduler/observation
instrumentation described in the file header. -/
structure Fibers where
  runningPool : List FiberTask := []
  finishedPool : List FiberTask := []
  generator : List FactoryBehavior
  settledIds : List Nat := []
  isCompleted : Bool := false
  isGeneratorConsuming : Bool := false
  allowBackgroundJobRunning : Bool := false
  activeBackgroundJob : Bool := false
  isFailed : Bool := false
  isResolvedOrRejected : Bool := false
  promiseState : PromiseState := .pending
  concurrency : Nat := 1
  errorHandler : Option (JsError → HandlerResult) := none
  rejectThrows : Option JsError := none
  ranCount : Nat := 0
  discardedRejections : List JsError := []

/-- `Set.add`: append if not already a member (JS sets keep insertion order). -/
def addSet (l : List FiberTask) (t : FiberTask) : List FiberTask :=
  if t ∈ l then l else l ++ [t]

/-- Resolving a promise settles it only if it is still pending. -/
def settleResolve : PromiseState → PromiseState
  | .pending => .resolved
  | ps => ps

/-- Rejecting a promise settles it only if it is still pending. -/
def settleReject (e : JsError) : PromiseState → PromiseState
  | .pending => .rejected e
  | ps => ps

/-- `_cleanup`: mark completed, clear the consumption flags, dispose the work
source and clear both pools. -/
def Fibers.cleanup (s : Fibers) : Fibers :=
  { s with isCompleted := true, isGeneratorConsuming := false,
           allowBackgroundJobRunning := false, activeBackgroundJob := false,
           generator := [], runningPool := [], finishedPool := [] }

/-- `_resolveIfNotFailedAndCleanup`: settle the lifecycle handle with success
unless it was already settled, then clean up. -/
def Fibers.resolveIfNotFailedAndCleanup (s : Fibers) : Fibers :=
  let s1 :=
    if s.isResolvedOrRejected then s
    else { s with isResolvedOrRejected := true,
                  promiseState := settleResolve s.promiseState }
  s1.cleanup

/-- `_raiseErrorAndCleanup`: mark failed; settle the handle with the error
unless already settled; if the settlement call itself throws, the (async)
method's promise rejects with `AggregateError([other, e])` — returned here as
the second component; finally clean up. -/
def Fibers.raiseErrorAndCleanup (s : Fibers) (e : JsError) : Fibers × Option JsError :=
  let s1 := { s with isFailed := true }
  if s1.isResolvedOrRejected then (s1.cleanup, none)
  else
    let s2 := { s1 with isResolvedOrRejected := true,
                        promiseState := settleReject e s1.promiseState }
    match s2.rejectThrows with
    | none => (s2.cleanup, none)
    | some other => (s2.cleanup, some (.aggregateError other e))

/-- What a call to `start()` does, as seen by its caller. -/
inductive StartResult where
  | threw (e : JsError)
  | resolvedNoop
  | existingJob
  | launched
deriving DecidableEq, Repr

/-- `start()`: synchronous guards, then launch of the background job. -/
def Fibers.start (s : Fibers) : Fibers × StartResult :=
  if s.isGeneratorConsuming then
    (s, .threw (.fiberError "Cannot start while iterating over fibers"))
  else if s.isCompleted || s.isFailed then
    (s, .resolvedNoop)
  else if s.activeBackgroundJob then
    (s, .existingJob)
  else
    ({ s with allowBackgroundJobRunning := true, activeBackgroundJob := true }, .launched)

/-- `stop()`: clear the background-allowed flag. -/
def Fibers.stop (s : Fibers) : Fibers :=
  { s with allowBackgroundJobRunning := false }

/-- `[Symbol.asyncIterator]()`: guard against an active background job, then
mark a foreground session open.  The second component is the thrown usage
error, if any. -/
def Fibers.openIterator (s : Fibers) : Fibers × Option JsError :=
  if s.activeBackgroundJob then
    (s, some (.fiberError "Cannot iterate while generator is running in background"))
  else
    ({ s with isGeneratorConsuming := true }, none)

/-- `return(value)` of the async-generator protocol. -/
def Fibers.returnMethod (s : Fibers) : Fibers :=
  s.resolveIfNotFailedAndCleanup

/-- `throw(e)` of the async-generator protocol: `await _raiseErrorAndCleanup(e)`
then `throw e`; if the awaited settlement raised the aggregate, that aggregate
is what propagates to the caller.  The second component is the error the
caller's `await` receives. -/
def Fibers.throwMethod (s : Fibers) (e : JsError) : Fibers × JsError :=
  match s.raiseErrorAndCleanup e with
  | (s1, some agg) => (s1, agg)
  | (s1, none) => (s1, e)

/-- The `concurrency` setter: validate `value > 0` with a descriptive error. -/
def Fibers.setConcurrency (s : Fibers) (value : Int) : Except JsError Fibers :=
  if value ≤ 0 then
    .error (.fiberError ("Concurrency level must be greater than 0: " ++ toString value))
  else
    .ok { s with concurrency := value.toNat }

/-- `setErrorHandler(handler | undefined)`. -/
def Fibers.setErrorHandler (s : Fibers) (h : Option (JsError → HandlerResult)) : Fibers :=
  { s with errorHandler := h }

/-- The error-handler consultation `this.b_errorHandler?.(error, this, 'next')`
inside the `catch` of `next`; an absent handler falls into the `default`
branch of the `switch`. -/
def Fibers.handlerDecision (s : Fibers) (e : JsError) : HandlerResult :=
  match s.errorHandler with
  | some h => h e
  | none => .dflt

/-- Result of the refill loop at the top of `next()`. -/
structure RefillRes where
  runningPool : List FiberTask
  generator : List FactoryBehavior
  active : Option FiberTask
  ranCount : Nat
  err : Option JsError
deriving Repr

/-- The refill loop of `next()`: while the running pool is below the
concurrency level read at step entry, pull the next descriptor; a synchronous
factory throw aborts the loop with the error (`activeTask` keeps the last
successfully instantiated task). -/
def Fibers.refill (taskSize : Nat) (running : List FiberTask)
    (gen : List FactoryBehavior) (active : Option FiberTask) (ran : Nat) : RefillRes :=
  if running.length < taskSize then
    match gen with
    | [] => ⟨running, [], active, ran, none⟩
    | .throws e :: rest => ⟨running, rest, active, ran + 1, some e⟩
    | .returns t :: rest => Fibers.refill taskSize (addSet running t) rest (some t) (ran + 1)
  else
    ⟨running, gen, active, ran, none⟩

/-- How one pass of the `next()` body ends. -/
inductive StepOutcome where
  | yieldv (v : Nat)
  | sdone
  | sthrew (e : JsError)
  | srecurse
  | sstuck
deriving DecidableEq, Repr

/-- Result of one pass of the `next()` body: the engine state after the pass's
`finally` block, the remaining oracle, the control outcome, the error that
reached the `catch` block (if any) and the pass's final `activeTask`. -/
structure StepRes where
  s : Fibers
  oracle : List Nat
  out : StepOutcome
  caught : Option JsError
  active : Option FiberTask

/-- The `finally` bookkeeping of `next()`: remove the pass's `activeTask`
from both pools. -/
def Fibers.eraseActive (s : Fibers) (active : Option FiberTask) : Fibers :=
  match active with
  | none => s
  | some t =>
    { s with runningPool := s.runningPool.erase t,
             finishedPool := s.finishedPool.erase t }

/-- The `catch` block of `next()` followed by the `finally` block and the
trailing return.  On `'default'`, `_raiseErrorAndCleanup(error)` is invoked
without `await`, so its rejection (the aggregate, when the settlement call
throws) lands on a discarded internal promise, and `throw error` re-raises the
original error. -/
def Fibers.catchPath (s : Fibers) (oracle : List Nat) (active : Option FiberTask)
    (e : JsError) : StepRes :=
  match s.handlerDecision e with
  | .stop =>
    ⟨(s.eraseActive active).resolveIfNotFailedAndCleanup, oracle, .sdone, some e, active⟩
  | .skip =>
    ⟨s.eraseActive active, oracle, .srecurse, some e, active⟩
  | .dflt =>
    let p := s.raiseErrorAndCleanup e
    let s2 := { p.1 with discardedRejections := p.1.discardedRejections ++ p.2.toList }
    ⟨s2.eraseActive active, oracle, .sthrew e, some e, active⟩

/-- A default task used only as the unreachable fallback of `List.getD`. -/
def defaultTask : FiberTask := ⟨0, .fulfilled 0⟩

/-- Continuation of the `next()` body after `await Promise.race(runningPool)`
settles with `raceOutcome`: a rejection jumps to the `catch`; a fulfilment
proceeds to the finished-pool spin and the claim of its first element.  An
empty finished pool would keep the spin-yield loop going forever (`sstuck`);
its `finally` block then never runs. -/
def Fibers.afterRace (s : Fibers) (oracle : List Nat) (active : Option FiberTask)
    (raceOutcome : TaskOutcome) : StepRes :=
  match raceOutcome with
  | .rejectedWith e => s.catchPath oracle active e
  | .fulfilled _ =>
    match s.finishedPool with
    | [] => ⟨s, oracle, .sstuck, none, active⟩
    | t :: _ =>
      match t.outcome with
      | .fulfilled v => ⟨s.eraseActive (some t), oracle, .yieldv v, none, some t⟩
      | .rejectedWith e => s.catchPath oracle (some t) e

/-- The `next()` body after a refill that raised no error: either finish
(running pool empty after an exhausted source), or race over the running pool
(an already-settled member wins immediately, in pool order; otherwise the
oracle chooses which in-flight member settles and the winner's `finally`
observer appends it to the finished pool). -/
def Fibers.nextStepCore (s1 : Fibers) (oracle : List Nat)
    (active : Option FiberTask) : StepRes :=
  if s1.runningPool.isEmpty then
    ⟨(s1.eraseActive active).resolveIfNotFailedAndCleanup, oracle, .sdone, none, active⟩
  else
    match s1.runningPool.find? (fun t => s1.settledIds.contains t.tid) with
    | some t0 => s1.afterRace oracle active t0.outcome
    | none =>
      let t0 := s1.runningPool.getD ((oracle.headD 0) % s1.runningPool.length) defaultTask
      Fibers.afterRace
        { s1 with settledIds := s1.settledIds ++ [t0.tid],
                  finishedPool := addSet s1.finishedPool t0 }
        oracle.tail active t0.outcome

/-- One pass of the `next()` body: refill, then `nextStepCore` (race, spin,
claim) or the `catch` path for a synchronous factory throw. -/
def Fibers.nextStep (s : Fibers) (oracle : List Nat) : StepRes :=
  let r := Fibers.refill s.concurrency s.runningPool s.generator none s.ranCount
  let s1 := { s with runningPool := r.runningPool, generator := r.generator,
                     ranCount := r.ranCount }
  match r.err with
  | some e => s1.catchPath oracle r.active e
  | none => s1.nextStepCore oracle r.active

/-- What a full `next()` call returns to its awaiting consumer. -/
inductive NextResult where
  | yielded (v : Nat)
  | ndone
  | nthrew (e : JsError)
  | diverged
deriving DecidableEq, Repr

/-- Result of a full `next()` call. -/
structure NextRes where
  s : Fibers
  oracle : List Nat
  out : NextResult

/-- A full `next()` call: iterate passes of the body, following the source's
trailing `return this.next(...)`.  `fuel` bounds the recursion; exhaustion and
the finished-pool spin that never exits are both reported as `diverged`. -/
def Fibers.nextFuel : Nat → Fibers → List Nat → NextRes
  | 0, s, oracle => ⟨s, oracle, .diverged⟩
  | fuel + 1, s, oracle =>
    let r := s.nextStep oracle
    match r.out with
    | .yieldv v => ⟨r.s, r.oracle, .yielded v⟩
    | .sdone => ⟨r.s, r.oracle, .ndone⟩
    | .sthrew e => ⟨r.s, r.oracle, .nthrew e⟩
    | .srecurse => Fibers.nextFuel fuel r.s r.oracle
    | .sstuck => ⟨r.s, r.oracle, .diverged⟩

/-- The private constructor `new Fibers(concurrency, generator)` before the
setter validation: empty pools, all flags false, pending lifecycle handle. -/
def Fibers.mkFibers (c : Nat) (g : List FactoryBehavior) : Fibers :=
  { generator := g, concurrency := c }

/-- The private constructor including `this.concurrency = concurrency`, which
validates through the setter. -/
def Fibers.newFibers (c : Int) (g : List FactoryBehavior) : Except JsError Fibers :=
  (Fibers.mkFibers 1 g).setConcurrency c

/-- The `_sequence` generator for a positive step: indices `start, start+step,
… < end`.  A non-positive step yields an infinite sequence in the source and
is not representable as a list, hence the hypothesis. -/
def Fibers.sequenceList (start endv step : Int) (hstep : 0 < step) : List Int :=
  if _h : start < endv then
    start :: Fibers.sequenceList (start + step) endv step hstep
  else
    []
termination_by (endv - start).toNat
decreasing_by omega

/-- `Fibers.for(concurrency, start, end, step, factory)` (named `forRange` as
in the spec, since `for` is reserved in Lean). -/
def Fibers.forRange (c : Int) (start endv step : Int) (hstep : 0 < step)
    (factory : Int → FactoryBehavior) : Except JsError Fibers :=
  Fibers.newFibers c ((Fibers.sequenceList start endv step hstep).map factory)

/-- `Fibers.forEach(concurrency, items, factory)`. -/
def Fibers.forEach {α : Type} (c : Int) (items : List α)
    (factory : α → FactoryBehavior) : Except JsError Fibers :=
  Fibers.newFibers c (items.map factory)

/-- The dedicated cancellation error of the delay helper (`AbortError`). -/
def Fibers.createAbortError : JsError := .abortError

/-- How the promise returned by `Fibers.delay` settles. -/
inductive DelayOutcome where
  | elapsed
  | aborted (e : JsError)
deriving DecidableEq, Repr

/-- Observable state of one `Fibers.delay` invocation: whether the timer is
pending, whether the abort listener is attached, and how the returned promise
settled (if it has). -/
structure DelayState where
  timerActive : Bool
  listenerAttached : Bool
  result : Option DelayOutcome
deriving DecidableEq, Repr

/-- A promise settles at most once. -/
def settleDelay (r : Option DelayOutcome) (v : DelayOutcome) : Option DelayOutcome :=
  match r with
  | none => some v
  | some w => some w

/-- `Fibers.delay(milliseconds, ac)`: with an already-aborted token the promise
rejects immediately and no timer or listener is ever created; otherwise a
timer is started and the abort listener attached.  The duration only feeds the
host timer and plays no role in the event ordering modelled here. -/
def Fibers.delay (_milliseconds : Nat) (acAborted : Bool) : DelayState :=
  if acAborted then ⟨false, false, some (.aborted Fibers.createAbortError)⟩
  else ⟨true, true, none⟩

/-- The timer callback: if the timer is still pending, run `cleanup()` (release
the timer, detach the listener) and resolve. -/
def Fibers.delayElapse (d : DelayState) : DelayState :=
  if d.timerActive then ⟨false, false, settleDelay d.result .elapsed⟩
  else d

/-- The `onAbort` listener: if still attached, run `cleanup()` and reject with
the cancellation error. -/
def Fibers.delayAbort (d : DelayState) : DelayState :=
  if d.listenerAttached then
    ⟨false, false, settleDelay d.result (.aborted Fibers.createAbortError)⟩
  else d

/-- The engine operations a consumer can perform, for stating lifecycle-wide
invariants.  `advance` is a full `next()` call under a given scheduler oracle
and fuel bound. -/
inductive Op where
  | advance (fuel : Nat) (oracle : List Nat)
  | setConc (value : Int)
  | setHandler (h : Option (JsError → HandlerResult))
  | startOp
  | stopOp
  | openIter
  | throwOp (e : JsError)
  | returnOp
  | dispose

/-- State effect of one engine operation (a throwing setter leaves the state
unchanged; returned values are dropped). -/
def Fibers.applyOp (s : Fibers) : Op → Fibers
  | .advance fuel oracle => (Fibers.nextFuel fuel s oracle).s
  | .setConc v =>
    match s.setConcurrency v with
    | .ok s1 => s1
    | .error _ => s
  | .setHandler h => s.setErrorHandler h
  | .startOp => (s.start).1
  | .stopOp => s.stop
  | .openIter => (s.openIterator).1
  | .throwOp e => (s.throwMethod e).1
  | .returnOp => s.returnMethod
  | .dispose => s.cleanup

/-- The shape `_cleanup` leaves a settled engine in: completed, both pools and
the work source cleared, lifecycle handle settled, no consumer attached. -/
def Fibers.TornDown (s : Fibers) : Prop :=
  s.isCompleted = true ∧ s.runningPool = [] ∧ s.finishedPool = [] ∧
  s.generator = [] ∧ s.isResolvedOrRejected = true ∧
  s.isGeneratorConsuming = false ∧ s.allowBackgroundJobRunning = false ∧
  s.activeBackgroundJob = false

instance (s : Fibers) : Decidable s.TornDown := by
  unfold Fibers.TornDown
  infer_instance

/-! ### Pool primitive lemmas -/

theorem addSet_length_le (l : List FiberTask) (t : FiberTask) :
    (addSet l t).length ≤ l.length + 1 := by
  unfold addSet; split <;> simp

theorem addSet_nodup (l : List FiberTask) (t : FiberTask) (h : l.Nodup) :
    (addSet l t).Nodup := by
  unfold addSet; split
  · exact h
  · next hm => simp [List.nodup_append, h, hm]

theorem refill_gen_nil (ts : Nat) (run : List FiberTask) (a : Option FiberTask)
    (ran : Nat) : Fibers.refill ts run [] a ran = ⟨run, [], a, ran, none⟩ := by
  unfold Fibers.refill; split <;> rfl

theorem refill_pool_length (ts : Nat) (gen : List FactoryBehavior) :
    ∀ (run : List FiberTask) (a : Option FiberTask) (ran : Nat),
      run.length ≤ ts → (Fibers.refill ts run gen a ran).runningPool.length ≤ ts := by
  induction gen with
  | nil => intro run a ran h; rw [refill_gen_nil]; exact h
  | cons fb rest ih =>
    intro run a ran h
    unfold Fibers.refill
    split
    · next hlt =>
      cases fb with
      | throws e => exact h
      | returns t => exact ih _ _ _ (by have := addSet_length_le run t; omega)
    · exact h

theorem refill_pool_nodup (ts : Nat) (gen : List FactoryBehavior) :
    ∀ (run : List FiberTask) (a : Option FiberTask) (ran : Nat),
      run.Nodup → (Fibers.refill ts run gen a ran).runningPool.Nodup := by
  induction gen with
  | nil => intro run a ran h; rw [refill_gen_nil]; exact h
  | cons fb rest ih =>
    intro run a ran h
    unfold Fibers.refill
    split
    · cases fb with
      | throws e => exact h
      | returns t => exact ih _ _ _ (addSet_nodup _ _ h)
    · exact h

/-! ### Field lemmas for the settlement helpers -/

@[simp] theorem eraseActive_isCompleted (s : Fibers) (a : Option FiberTask) :
    (s.eraseActive a).isCompleted = s.isCompleted := by cases a <;> rfl

@[simp] theorem eraseActive_isFailed (s : Fibers) (a : Option FiberTask) :
    (s.eraseActive a).isFailed = s.isFailed := by cases a <;> rfl

@[simp] theorem eraseActive_flag (s : Fibers) (a : Option FiberTask) :
    (s.eraseActive a).isResolvedOrRejected = s.isResolvedOrRejected := by
  cases a <;> rfl

@[simp] theorem eraseActive_promiseState (s : Fibers) (a : Option FiberTask) :
    (s.eraseActive a).promiseState = s.promiseState := by cases a <;> rfl

@[simp] theorem eraseActive_concurrency (s : Fibers) (a : Option FiberTask) :
    (s.eraseActive a).concurrency = s.concurrency := by cases a <;> rfl

@[simp] theorem eraseActive_errorHandler (s : Fibers) (a : Option FiberTask) :
    (s.eraseActive a).errorHandler = s.errorHandler := by cases a <;> rfl

@[simp] theorem eraseActive_generator (s : Fibers) (a : Option FiberTask) :
    (s.eraseActive a).generator = s.generator := by cases a <;> rfl

@[simp] theorem eraseActive_consuming (s : Fibers) (a : Option FiberTask) :
    (s.eraseActive a).isGeneratorConsuming = s.isGeneratorConsuming := by
  cases a <;> rfl

@[simp] theorem eraseActive_rejectThrows (s : Fibers) (a : Option FiberTask) :
    (s.eraseActive a).rejectThrows = s.rejectThrows := by cases a <;> rfl

theorem eraseActive_pool_length (s : Fibers) (a : Option FiberTask) :
    (s.eraseActive a).runningPool.length ≤ s.runningPool.length := by
  cases a with
  | none => simp [Fibers.eraseActive]
  | some t =>
    simpa [Fibers.eraseActive] using (List.erase_sublist t s.runningPool).length_le

@[simp] theorem cleanup_isCompleted (s : Fibers) : (s.cleanup).isCompleted = true := rfl

@[simp] theorem cleanup_runningPool (s : Fibers) : (s.cleanup).runningPool = [] := rfl

@[simp] theorem cleanup_finishedPool (s : Fibers) : (s.cleanup).finishedPool = [] := rfl

@[simp] theorem cleanup_generator (s : Fibers) : (s.cleanup).generator = [] := rfl

@[simp] theorem cleanup_consuming (s : Fibers) :
    (s.cleanup).isGeneratorConsuming = false := rfl

@[simp] theorem cleanup_allow (s : Fibers) :
    (s.cleanup).allowBackgroundJobRunning = false := rfl

@[simp] theorem cleanup_activeJob (s : Fibers) :
    (s.cleanup).activeBackgroundJob = false := rfl

@[simp] theorem cleanup_isFailed (s : Fibers) : (s.cleanup).isFailed = s.isFailed := rfl

@[simp] theorem cleanup_flag (s : Fibers) :
    (s.cleanup).isResolvedOrRejected = s.isResolvedOrRejected := rfl

@[simp] theorem cleanup_promiseState (s : Fibers) :
    (s.cleanup).promiseState = s.promiseState := rfl

@[simp] theorem cleanup_concurrency (s : Fibers) :
    (s.cleanup).concurrency = s.concurrency := rfl

@[simp] theorem cleanup_errorHandler (s : Fibers) :
    (s.cleanup).errorHandler = s.errorHandler := rfl

@[simp] theorem cleanup_rejectThrows (s : Fibers) :
    (s.cleanup).rejectThrows = s.rejectThrows := rfl

@[simp] theorem resolveIfNot_isCompleted (s : Fibers) :
    (s.resolveIfNotFailedAndCleanup).isCompleted = true := by
  unfold Fibers.resolveIfNotFailedAndCleanup; split <;> simp

@[simp] theorem resolveIfNot_runningPool (s : Fibers) :
    (s.resolveIfNotFailedAndCleanup).runningPool = [] := by
  unfold Fibers.resolveIfNotFailedAndCleanup; split <;> simp

@[simp] theorem resolveIfNot_finishedPool (s : Fibers) :
    (s.resolveIfNotFailedAndCleanup).finishedPool = [] := by
  unfold Fibers.resolveIfNotFailedAndCleanup; split <;> simp

@[simp] theorem resolveIfNot_generator (s : Fibers) :
    (s.resolveIfNotFailedAndCleanup).generator = [] := by
  unfold Fibers.resolveIfNotFailedAndCleanup; split <;> simp

@[simp] theorem resolveIfNot_consuming (s : Fibers) :
    (s.resolveIfNotFailedAndCleanup).isGeneratorConsuming = false := by
  unfold Fibers.resolveIfNotFailedAndCleanup; split <;> simp

@[simp] theorem resolveIfNot_allow (s : Fibers) :
    (s.resolveIfNotFailedAndCleanup).allowBackgroundJobRunning = false := by
  unfold Fibers.resolveIfNotFailedAndCleanup; split <;> simp

@[simp] theorem resolveIfNot_activeJob (s : Fibers) :
    (s.resolveIfNotFailedAndCleanup).activeBackgroundJob = false := by
  unfold Fibers.resolveIfNotFailedAndCleanup; split <;> simp

@[simp] theorem resolveIfNot_isFailed (s : Fibers) :
    (s.resolveIfNotFailedAndCleanup).isFailed = s.isFailed := by
  unfold Fibers.resolveIfNotFailedAndCleanup; split <;> simp

@[simp] theorem resolveIfNot_flag (s : Fibers) :
    (s.resolveIfNotFailedAndCleanup).isResolvedOrRejected = true := by
  unfold Fibers.resolveIfNotFailedAndCleanup; split
  · next h => simpa using h
  · simp

@[simp] theorem resolveIfNot_concurrency (s : Fibers) :
    (s.resolveIfNotFailedAndCleanup).concurrency = s.concurrency := by
  unfold Fibers.resolveIfNotFailedAndCleanup; split <;> simp

@[simp] theorem resolveIfNot_errorHandler (s : Fibers) :
    (s.resolveIfNotFailedAndCleanup).errorHandler = s.errorHandler := by
  unfold Fibers.resolveIfNotFailedAndCleanup; split <;> simp

theorem resolveIfNot_promise_of_flag (s : Fibers) (h : s.isResolvedOrRejected = true) :
    (s.resolveIfNotFailedAndCleanup).promiseState = s.promiseState := by
  unfold Fibers.resolveIfNotFailedAndCleanup
  rw [h]
  simp

theorem resolveIfNot_promise_of_not_flag (s : Fibers)
    (h : s.isResolvedOrRejected = false) :
    (s.resolveIfNotFailedAndCleanup).promiseState = settleResolve s.promiseState := by
  unfold Fibers.resolveIfNotFailedAndCleanup
  rw [h]
  simp

@[simp] theorem raise_isFailed (s : Fibers) (e : JsError) :
    ((s.raiseErrorAndCleanup e).1).isFailed = true := by
  unfold Fibers.raiseErrorAndCleanup; dsimp only; split
  · simp
  · split <;> simp

@[simp] theorem raise_isCompleted (s : Fibers) (e : JsError) :
    ((s.raiseErrorAndCleanup e).1).isCompleted = true := by
  unfold Fibers.raiseErrorAndCleanup; dsimp only; split
  · simp
  · split <;> simp

@[simp] theorem raise_runningPool (s : Fibers) (e : JsError) :
    ((s.raiseErrorAndCleanup e).1).runningPool = [] := by
  unfold Fibers.raiseErrorAndCleanup; dsimp only; split
  · simp
  · split <;> simp

@[simp] theorem raise_finishedPool (s : Fibers) (e : JsError) :
    ((s.raiseErrorAndCleanup e).1).finishedPool = [] := by
  unfold Fibers.raiseErrorAndCleanup; dsimp only; split
  · simp
  · split <;> simp

@[simp] theorem raise_generator (s : Fibers) (e : JsError) :
    ((s.raiseErrorAndCleanup e).1).generator = [] := by
  unfold Fibers.raiseErrorAndCleanup; dsimp only; split
  · simp
  · split <;> simp

@[simp] theorem raise_consuming (s : Fibers) (e : JsError) :
    ((s.raiseErrorAndCleanup e).1).isGeneratorConsuming = false := by
  unfold Fibers.raiseErrorAndCleanup; dsimp only; split
  · simp
  · split <;> simp

@[simp] theorem raise_allow (s : Fibers) (e : JsError) :
    ((s.raiseErrorAndCleanup e).1).allowBackgroundJobRunning = false := by
  unfold Fibers.raiseErrorAndCleanup; dsimp only; split
  · simp
  · split <;> simp

@[simp] theorem raise_activeJob (s : Fibers) (e : JsError) :
    ((s.raiseErrorAndCleanup e).1).activeBackgroundJob = false := by
  unfold Fibers.raiseErrorAndCleanup; dsimp only; split
  · simp
  · split <;> simp

@[simp] theorem raise_flag (s : Fibers) (e : JsError) :
    ((s.raiseErrorAndCleanup e).1).isResolvedOrRejected = true := by
  unfold Fibers.raiseErrorAndCleanup; dsimp only; split
  · next h => simpa using h
  · split <;> simp

@[simp] theorem raise_concurrency (s : Fibers) (e : JsError) :
    ((s.raiseErrorAndCleanup e).1).concurrency = s.concurrency := by
  unfold Fibers.raiseErrorAndCleanup; dsimp only; split
  · simp
  · split <;> simp

@[simp] theorem raise_errorHandler (s : Fibers) (e : JsError) :
    ((s.raiseErrorAndCleanup e).1).errorHandler = s.errorHandler := by
  unfold Fibers.raiseErrorAndCleanup; dsimp only; split
  · simp
  · split <;> simp

theorem raise_promise_of_flag (s : Fibers) (e : JsError)
    (h : s.isResolvedOrRejected = true) :
    ((s.raiseErrorAndCleanup e).1).promiseState = s.promiseState ∧
      (s.raiseErrorAndCleanup e).2 = none := by
  unfold Fibers.raiseErrorAndCleanup
  simp [h]

theorem raise_promise_of_not_flag (s : Fibers) (e : JsError)
    (h : s.isResolvedOrRejected = false) :
    ((s.raiseErrorAndCleanup e).1).promiseState = settleReject e s.promiseState := by
  unfold Fibers.raiseErrorAndCleanup
  simp only [h]
  split
  · simp_all
  · split <;> simp

theorem eraseActive_runningPool_nil (s : Fibers) (a : Option FiberTask)
    (h : s.runningPool = []) : (s.eraseActive a).runningPool = [] := by
  cases a <;> simp [Fibers.eraseActive, h]

theorem eraseActive_finishedPool_nil (s : Fibers) (a : Option FiberTask)
    (h : s.finishedPool = []) : (s.eraseActive a).finishedPool = [] := by
  cases a <;> simp [Fibers.eraseActive, h]

/-! ### Characterisation of the catch path and the race continuation -/

theorem catchPath_caught (s : Fibers) (o : List Nat) (a : Option FiberTask)
    (e : JsError) : (Fibers.catchPath s o a e).caught = some e := by
  unfold Fibers.catchPath; split <;> rfl

theorem catchPath_eq_stop (s : Fibers) (o : List Nat) (a : Option FiberTask)
    (e : JsError) (h : s.handlerDecision e = .stop) :
    Fibers.catchPath s o a e =
      ⟨(s.eraseActive a).resolveIfNotFailedAndCleanup, o, .sdone, some e, a⟩ := by
  unfold Fibers.catchPath; rw [h]

theorem catchPath_eq_skip (s : Fibers) (o : List Nat) (a : Option FiberTask)
    (e : JsError) (h : s.handlerDecision e = .skip) :
    Fibers.catchPath s o a e = ⟨s.eraseActive a, o, .srecurse, some e, a⟩ := by
  unfold Fibers.catchPath; rw [h]

theorem catchPath_eq_dflt (s : Fibers) (o : List Nat) (a : Option FiberTask)
    (e : JsError) (h : s.handlerDecision e = .dflt) :
    Fibers.catchPath s o a e =
      ⟨({ (s.raiseErrorAndCleanup e).1 with
            discardedRejections := (s.raiseErrorAndCleanup e).1.discardedRejections ++
              (s.raiseErrorAndCleanup e).2.toList }).eraseActive a,
        o, .sthrew e, some e, a⟩ := by
  unfold Fibers.catchPath; rw [h]

theorem afterRace_rejected (s : Fibers) (o : List Nat) (a : Option FiberTask)
    (e : JsError) :
    Fibers.afterRace s o a (.rejectedWith e) = Fibers.catchPath s o a e := rfl

theorem afterRace_fulfilled_nil (s : Fibers) (o : List Nat) (a : Option FiberTask)
    (v : Nat) (h : s.finishedPool = []) :
    Fibers.afterRace s o a (.fulfilled v) = ⟨s, o, .sstuck, none, a⟩ := by
  unfold Fibers.afterRace; rw [h]

theorem afterRace_fulfilled_claim (s : Fibers) (o : List Nat) (a : Option FiberTask)
    (v : Nat) (t : FiberTask) (rest : List FiberTask) (h : s.finishedPool = t :: rest) :
    Fibers.afterRace s o a (.fulfilled v) =
      (match t.outcome with
       | .fulfilled w => ⟨s.eraseActive (some t), o, .yieldv w, none, some t⟩
       | .rejectedWith e => Fibers.catchPath s o (some t) e) := by
  unfold Fibers.afterRace; rw [h]

theorem nextStepCore_empty (s1 : Fibers) (o : List Nat) (a : Option FiberTask)
    (h : s1.runningPool = []) :
    Fibers.nextStepCore s1 o a =
      ⟨(s1.eraseActive a).resolveIfNotFailedAndCleanup, o, .sdone, none, a⟩ := by
  unfold Fibers.nextStepCore; simp [h]

theorem nextStepCore_found (s1 : Fibers) (o : List Nat) (a : Option FiberTask)
    (t0 : FiberTask) (hne : s1.runningPool.isEmpty = false)
    (hf : s1.runningPool.find? (fun t => s1.settledIds.contains t.tid) = some t0) :
    Fibers.nextStepCore s1 o a = s1.afterRace o a t0.outcome := by
  unfold Fibers.nextStepCore
  rw [if_neg (by simp [hne]), hf]

theorem nextStepCore_pick (s1 : Fibers) (o : List Nat) (a : Option FiberTask)
    (hne : s1.runningPool.isEmpty = false)
    (hf : s1.runningPool.find? (fun t => s1.settledIds.contains t.tid) = none) :
    Fibers.nextStepCore s1 o a =
      Fibers.afterRace
        { s1 with
            settledIds := s1.settledIds ++
              [(s1.runningPool.getD ((o.headD 0) % s1.runningPool.length) defaultTask).tid],
            finishedPool := addSet s1.finishedPool
              (s1.runningPool.getD ((o.headD 0) % s1.runningPool.length) defaultTask) }
        o.tail a
        (s1.runningPool.getD ((o.headD 0) % s1.runningPool.length) defaultTask).outcome := by
  unfold Fibers.nextStepCore
  rw [if_neg (by simp [hne]), hf]

theorem nextStep_spec_throw (s : Fibers) (o : List Nat) (run1 : List FiberTask)
    (gen1 : List FactoryBehavior) (a1 : Option FiberTask) (ran1 : Nat) (e : JsError)
    (hr : Fibers.refill s.concurrency s.runningPool s.generator none s.ranCount =
      ⟨run1, gen1, a1, ran1, some e⟩) :
    s.nextStep o =
      Fibers.catchPath { s with runningPool := run1, generator := gen1,
                                ranCount := ran1 } o a1 e := by
  simp only [Fibers.nextStep, hr]

theorem nextStep_spec_ok (s : Fibers) (o : List Nat) (run1 : List FiberTask)
    (gen1 : List FactoryBehavior) (a1 : Option FiberTask) (ran1 : Nat)
    (hr : Fibers.refill s.concurrency s.runningPool s.generator none s.ranCount =
      ⟨run1, gen1, a1, ran1, none⟩) :
    s.nextStep o =
      Fibers.nextStepCore { s with runningPool := run1, generator := gen1,
                                   ranCount := ran1 } o a1 := by
  simp only [Fibers.nextStep, hr]

/-! ### A settled handle stays settled, with the same outcome -/

theorem catchPath_frozen (s : Fibers) (o : List Nat) (a : Option FiberTask)
    (e : JsError) (h : s.isResolvedOrRejected = true) :
    (Fibers.catchPath s o a e).s.isResolvedOrRejected = true ∧
    (Fibers.catchPath s o a e).s.promiseState = s.promiseState := by
  rcases hd : s.handlerDecision e with _ | _ | _
  · rw [catchPath_eq_stop s o a e hd]
    exact ⟨by simp, by simp [resolveIfNot_promise_of_flag (s.eraseActive a) (by simp [h])]⟩
  · rw [catchPath_eq_skip s o a e hd]
    exact ⟨by simp [h], by simp⟩
  · rw [catchPath_eq_dflt s o a e hd]
    exact ⟨by simp, by simp [(raise_promise_of_flag s e h).1]⟩

theorem afterRace_frozen (s : Fibers) (o : List Nat) (a : Option FiberTask)
    (oc : TaskOutcome) (h : s.isResolvedOrRejected = true) :
    (Fibers.afterRace s o a oc).s.isResolvedOrRejected = true ∧
    (Fibers.afterRace s o a oc).s.promiseState = s.promiseState := by
  cases oc with
  | rejectedWith e => exact catchPath_frozen s o a e h
  | fulfilled v =>
    rcases hf : s.finishedPool with _ | ⟨t, rest⟩
    · rw [afterRace_fulfilled_nil s o a v hf]
      exact ⟨h, rfl⟩
    · rw [afterRace_fulfilled_claim s o a v t rest hf]
      rcases ho : t.outcome with w | e
      · exact ⟨by simp [h], by simp⟩
      · exact catchPath_frozen s o (some t) e h

theorem nextStepCore_frozen (s1 : Fibers) (o : List Nat) (a : Option FiberTask)
    (h : s1.isResolvedOrRejected = true) :
    (Fibers.nextStepCore s1 o a).s.isResolvedOrRejected = true ∧
    (Fibers.nextStepCore s1 o a).s.promiseState = s1.promiseState := by
  cases he : s1.runningPool.isEmpty with
  | true =>
    rw [nextStepCore_empty s1 o a (by simpa using he)]
    exact ⟨by simp, by simp [resolveIfNot_promise_of_flag (s1.eraseActive a) (by simp [h])]⟩
  | false =>
    rcases hf : s1.runningPool.find? (fun t => s1.settledIds.contains t.tid) with _ | t0
    · rw [nextStepCore_pick s1 o a he hf]
      have := afterRace_frozen
        { s1 with
            settledIds := s1.settledIds ++
              [(s1.runningPool.getD ((o.headD 0) % s1.runningPool.length) defaultTask).tid],
            finishedPool := addSet s1.finishedPool
              (s1.runningPool.getD ((o.headD 0) % s1.runningPool.length) defaultTask) }
        o.tail a
        (s1.runningPool.getD ((o.headD 0) % s1.runningPool.length) defaultTask).outcome
        (by simpa using h)
      simpa using this
    · rw [nextStepCore_found s1 o a t0 he hf]
      exact afterRace_frozen s1 o a t0.outcome h

theorem nextStep_frozen (s : Fibers) (o : List Nat)
    (h : s.isResolvedOrRejected = true) :
    (s.nextStep o).s.isResolvedOrRejected = true ∧
    (s.nextStep o).s.promiseState = s.promiseState := by
  rcases hr : Fibers.refill s.concurrency s.runningPool s.generator none s.ranCount
    with ⟨run1, gen1, a1, ran1, err1⟩
  cases err1 with
  | some e =>
    rw [nextStep_spec_throw s o run1 gen1 a1 ran1 e hr]
    have := catchPath_frozen { s with runningPool := run1, generator := gen1,
                                      ranCount := ran1 } o a1 e (by simpa using h)
    simpa using this
  | none =>
    rw [nextStep_spec_ok s o run1 gen1 a1 ran1 hr]
    have := nextStepCore_frozen { s with runningPool := run1, generator := gen1,
                                         ranCount := ran1 } o a1 (by simpa using h)
    simpa using this

theorem nextFuel_frozen (fuel : Nat) :
    ∀ (s : Fibers) (o : List Nat), s.isResolvedOrRejected = true →
      (Fibers.nextFuel fuel s o).s.isResolvedOrRejected = true ∧
      (Fibers.nextFuel fuel s o).s.promiseState = s.promiseState := by
  induction fuel with
  | zero => intro s o h; exact ⟨h, rfl⟩
  | succ n ih =>
    intro s o h
    have hstep := nextStep_frozen s o h
    simp only [Fibers.nextFuel]
    rcases hout : (s.nextStep o).out with v | _ | e | _ | _ <;> simp only [hout]
    · exact hstep
    · exact hstep
    · exact hstep
    · have := ih (s.nextStep o).s (s.nextStep o).oracle hstep.1
      exact ⟨this.1, this.2.trans hstep.2⟩
    · exact hstep

/-! ### `completed` is monotone -/

theorem catchPath_completed (s : Fibers) (o : List Nat) (a : Option FiberTask)
    (e : JsError) (h : s.isCompleted = true) :
    (Fibers.catchPath s o a e).s.isCompleted = true := by
  rcases hd : s.handlerDecision e with _ | _ | _
  · rw [catchPath_eq_stop s o a e hd]; simp
  · rw [catchPath_eq_skip s o a e hd]; simp [h]
  · rw [catchPath_eq_dflt s o a e hd]; simp

theorem afterRace_completed (s : Fibers) (o : List Nat) (a : Option FiberTask)
    (oc : TaskOutcome) (h : s.isCompleted = true) :
    (Fibers.afterRace s o a oc).s.isCompleted = true := by
  cases oc with
  | rejectedWith e => exact catchPath_completed s o a e h
  | fulfilled v =>
    rcases hf : s.finishedPool with _ | ⟨t, rest⟩
    · rw [afterRace_fulfilled_nil s o a v hf]; exact h
    · rw [afterRace_fulfilled_claim s o a v t rest hf]
      rcases ho : t.outcome with w | e
      · simp [h]
      · exact catchPath_completed s o (some t) e h

theorem nextStepCore_completed (s1 : Fibers) (o : List Nat) (a : Option FiberTask)
    (h : s1.isCompleted = true) :
    (Fibers.nextStepCore s1 o a).s.isCompleted = true := by
  cases he : s1.runningPool.isEmpty with
  | true =>
    rw [nextStepCore_empty s1 o a (by simpa using he)]; simp
  | false =>
    rcases hf : s1.runningPool.find? (fun t => s1.settledIds.contains t.tid) with _ | t0
    · rw [nextStepCore_pick s1 o a he hf]
      exact afterRace_completed _ _ _ _ (by simpa using h)
    · rw [nextStepCore_found s1 o a t0 he hf]
      exact afterRace_completed s1 o a t0.outcome h

theorem nextStep_completed (s : Fibers) (o : List Nat) (h : s.isCompleted = true) :
    (s.nextStep o).s.isCompleted = true := by
  rcases hr : Fibers.refill s.concurrency s.runningPool s.generator none s.ranCount
    with ⟨run1, gen1, a1, ran1, err1⟩
  cases err1 with
  | some e =>
    rw [nextStep_spec_throw s o run1 gen1 a1 ran1 e hr]
    exact catchPath_completed _ _ _ _ (by simpa using h)
  | none =>
    rw [nextStep_spec_ok s o run1 gen1 a1 ran1 hr]
    exact nextStepCore_completed _ _ _ (by simpa using h)

theorem nextFuel_completed (fuel : Nat) :
    ∀ (s : Fibers) (o : List Nat), s.isCompleted = true →
      (Fibers.nextFuel fuel s o).s.isCompleted = true := by
  induction fuel with
  | zero => intro s o h; exact h
  | succ n ih =>
    intro s o h
    have hstep := nextStep_completed s o h
    simp only [Fibers.nextFuel]
    rcases hout : (s.nextStep o).out with v | _ | e | _ | _ <;> simp only [hout]
    · exact hstep
    · exact hstep
    · exact hstep
    · exact ih (s.nextStep o).s (s.nextStep o).oracle hstep
    · exact hstep

/-! ### The pool bound and the concurrency level across a step -/

theorem catchPath_concurrency (s : Fibers) (o : List Nat) (a : Option FiberTask)
    (e : JsError) : (Fibers.catchPath s o a e).s.concurrency = s.concurrency := by
  rcases hd : s.handlerDecision e with _ | _ | _
  · rw [catchPath_eq_stop s o a e hd]; simp
  · rw [catchPath_eq_skip s o a e hd]; simp
  · rw [catchPath_eq_dflt s o a e hd]; simp

theorem afterRace_concurrency (s : Fibers) (o : List Nat) (a : Option FiberTask)
    (oc : TaskOutcome) : (Fibers.afterRace s o a oc).s.concurrency = s.concurrency := by
  cases oc with
  | rejectedWith e => exact catchPath_concurrency s o a e
  | fulfilled v =>
    rcases hf : s.finishedPool with _ | ⟨t, rest⟩
    · rw [afterRace_fulfilled_nil s o a v hf]
    · rw [afterRace_fulfilled_claim s o a v t rest hf]
      rcases ho : t.outcome with w | e
      · simp
      · exact catchPath_concurrency s o (some t) e

theorem nextStepCore_concurrency (s1 : Fibers) (o : List Nat) (a : Option FiberTask) :
    (Fibers.nextStepCore s1 o a).s.concurrency = s1.concurrency := by
  cases he : s1.runningPool.isEmpty with
  | true => rw [nextStepCore_empty s1 o a (by simpa using he)]; simp
  | false =>
    rcases hf : s1.runningPool.find? (fun t => s1.settledIds.contains t.tid) with _ | t0
    · rw [nextStepCore_pick s1 o a he hf]
      simpa using afterRace_concurrency _ o.tail a _
    · rw [nextStepCore_found s1 o a t0 he hf]
      exact afterRace_concurrency s1 o a t0.outcome

theorem nextStep_concurrency (s : Fibers) (o : List Nat) :
    (s.nextStep o).s.concurrency = s.concurrency := by
  rcases hr : Fibers.refill s.concurrency s.runningPool s.generator none s.ranCount
    with ⟨run1, gen1, a1, ran1, err1⟩
  cases err1 with
  | some e =>
    rw [nextStep_spec_throw s o run1 gen1 a1 ran1 e hr]
    simpa using catchPath_concurrency _ o a1 e
  | none =>
    rw [nextStep_spec_ok s o run1 gen1 a1 ran1 hr]
    simpa using nextStepCore_concurrency _ o a1

theorem catchPath_pool_le (s : Fibers) (o : List Nat) (a : Option FiberTask)
    (e : JsError) (n : Nat) (h : s.runningPool.length ≤ n) :
    (Fibers.catchPath s o a e).s.runningPool.length ≤ n := by
  rcases hd : s.handlerDecision e with _ | _ | _
  · rw [catchPath_eq_stop s o a e hd]; simp
  · rw [catchPath_eq_skip s o a e hd]
    exact le_trans (by simpa using eraseActive_pool_length s a) h
  · rw [catchPath_eq_dflt s o a e hd]
    cases a <;> simp [Fibers.eraseActive]

theorem afterRace_pool_le (s : Fibers) (o : List Nat) (a : Option FiberTask)
    (oc : TaskOutcome) (n : Nat) (h : s.runningPool.length ≤ n) :
    (Fibers.afterRace s o a oc).s.runningPool.length ≤ n := by
  cases oc with
  | rejectedWith e => exact catchPath_pool_le s o a e n h
  | fulfilled v =>
    rcases hf : s.finishedPool with _ | ⟨t, rest⟩
    · rw [afterRace_fulfilled_nil s o a v hf]; exact h
    · rw [afterRace_fulfilled_claim s o a v t rest hf]
      rcases ho : t.outcome with w | e
      · exact le_trans (by simpa using eraseActive_pool_length s (some t)) h
      · exact catchPath_pool_le s o (some t) e n h

theorem nextStepCore_pool_le (s1 : Fibers) (o : List Nat) (a : Option FiberTask)
    (n : Nat) (h : s1.runningPool.length ≤ n) :
    (Fibers.nextStepCore s1 o a).s.runningPool.length ≤ n := by
  cases he : s1.runningPool.isEmpty with
  | true => rw [nextStepCore_empty s1 o a (by simpa using he)]; simp
  | false =>
    rcases hf : s1.runningPool.find? (fun t => s1.settledIds.contains t.tid) with _ | t0
    · rw [nextStepCore_pick s1 o a he hf]
      exact afterRace_pool_le _ o.tail a _ n (by simpa using h)
    · rw [nextStepCore_found s1 o a t0 he hf]
      exact afterRace_pool_le s1 o a t0.outcome n h

theorem nextStep_pool_le (s : Fibers) (o : List Nat)
    (h : s.runningPool.length ≤ s.concurrency) :
    (s.nextStep o).s.runningPool.length ≤ s.concurrency := by
  rcases hr : Fibers.refill s.concurrency s.runningPool s.generator none s.ranCount
    with ⟨run1, gen1, a1, ran1, err1⟩
  have hlen : run1.length ≤ s.concurrency := by
    have := refill_pool_length s.concurrency s.generator s.runningPool none s.ranCount h
    rw [hr] at this
    exact this
  cases err1 with
  | some e =>
    rw [nextStep_spec_throw s o run1 gen1 a1 ran1 e hr]
    exact catchPath_pool_le _ o a1 e s.concurrency (by simpa using hlen)
  | none =>
    rw [nextStep_spec_ok s o run1 gen1 a1 ran1 hr]
    exact nextStepCore_pool_le _ o a1 s.concurrency (by simpa using hlen)

theorem nextFuel_pool_le (fuel : Nat) :
    ∀ (s : Fibers) (o : List Nat), s.runningPool.length ≤ s.concurrency →
      (Fibers.nextFuel fuel s o).s.runningPool.length ≤
        (Fibers.nextFuel fuel s o).s.concurrency := by
  induction fuel with
  | zero => intro s o h; exact h
  | succ n ih =>
    intro s o h
    have hstep := nextStep_pool_le s o h
    have hc := nextStep_concurrency s o
    simp only [Fibers.nextFuel]
    rcases hout : (s.nextStep o).out with v | _ | e | _ | _ <;> simp only [hout]
    · exact hc ▸ hstep
    · exact hc ▸ hstep
    · exact hc ▸ hstep
    · exact ih (s.nextStep o).s (s.nextStep o).oracle (hc ▸ hstep)
    · exact hc ▸ hstep

/-! ### A torn-down engine is a fixed point of the advance step -/

theorem tornDown_nextStep (s : Fibers) (o : List Nat) (h : s.TornDown) :
    s.nextStep o = ⟨s, o, .sdone, none, none⟩ := by
  obtain ⟨h1, h2, h3, h4, h5, h6, h7, h8⟩ := h
  have hr : Fibers.refill s.concurrency s.runningPool s.generator none s.ranCount =
      ⟨s.runningPool, [], none, s.ranCount, none⟩ := by
    rw [h4, refill_gen_nil]
  rw [nextStep_spec_ok s o s.runningPool [] none s.ranCount hr]
  have hs1 : ({ s with runningPool := s.runningPool, generator := ([] : List FactoryBehavior), ranCount := s.ranCount } : Fibers) = s := by
    cases s; simp_all
  rw [hs1, nextStepCore_empty s o none h2]
  have hres : (s.eraseActive none).resolveIfNotFailedAndCleanup = s := by
    cases s
    unfold Fibers.eraseActive Fibers.resolveIfNotFailedAndCleanup Fibers.cleanup
    simp_all
  rw [hres]

theorem tornDown_nextFuel (s : Fibers) (o : List Nat) (f : Nat) (h : s.TornDown) :
    Fibers.nextFuel (f + 1) s o = ⟨s, o, .ndone⟩ := by
  simp only [Fibers.nextFuel]
  rw [tornDown_nextStep s o h]

/-! ### Every pass is either a catch-path result or a caught-free result -/

theorem afterRace_cases (s : Fibers) (o : List Nat) (a : Option FiberTask)
    (oc : TaskOutcome) :
    (∃ a2 e, Fibers.afterRace s o a oc = Fibers.catchPath s o a2 e) ∨
    ((Fibers.afterRace s o a oc).caught = none ∧
      ((∃ v, (Fibers.afterRace s o a oc).out = .yieldv v) ∨
       (Fibers.afterRace s o a oc).out = .sstuck)) := by
  cases oc with
  | rejectedWith e => exact Or.inl ⟨a, e, rfl⟩
  | fulfilled v =>
    rcases hf : s.finishedPool with _ | ⟨t, rest⟩
    · rw [afterRace_fulfilled_nil s o a v hf]
      exact Or.inr ⟨rfl, Or.inr rfl⟩
    · rw [afterRace_fulfilled_claim s o a v t rest hf]
      rcases ho : t.outcome with w | e
      · simp only [ho]
        exact Or.inr ⟨by simp, Or.inl ⟨w, by simp⟩⟩
      · simp only [ho]
        exact Or.inl ⟨some t, e, by simp⟩

theorem nextStepCore_cases (s1 : Fibers) (o : List Nat) (a : Option FiberTask) :
    (∃ s2 o2 a2 e, Fibers.nextStepCore s1 o a = Fibers.catchPath s2 o2 a2 e ∧
       s2.isFailed = s1.isFailed ∧ s2.isResolvedOrRejected = s1.isResolvedOrRejected ∧
       s2.promiseState = s1.promiseState ∧ s2.errorHandler = s1.errorHandler) ∨
    ((Fibers.nextStepCore s1 o a).caught = none ∧
      ((Fibers.nextStepCore s1 o a).out = .sdone ∨
       (∃ v, (Fibers.nextStepCore s1 o a).out = .yieldv v) ∨
       (Fibers.nextStepCore s1 o a).out = .sstuck)) := by
  cases he : s1.runningPool.isEmpty with
  | true =>
    rw [nextStepCore_empty s1 o a (by simpa using he)]
    exact Or.inr ⟨rfl, Or.inl rfl⟩
  | false =>
    rcases hf : s1.runningPool.find? (fun t => s1.settledIds.contains t.tid) with _ | t0
    · rw [nextStepCore_pick s1 o a he hf]
      generalize (s1.runningPool.getD ((o.headD 0) % s1.runningPool.length) defaultTask) = tp
      rcases afterRace_cases
          { s1 with settledIds := s1.settledIds ++ [tp.tid],
                    finishedPool := addSet s1.finishedPool tp }
          o.tail a tp.outcome with ⟨a2, e, heq⟩ | hrr
      · exact Or.inl ⟨_, _, a2, e, heq, by simp, by simp, by simp, by simp⟩
      · exact Or.inr ⟨hrr.1, Or.inr hrr.2⟩
    · rw [nextStepCore_found s1 o a t0 he hf]
      rcases afterRace_cases s1 o a t0.outcome with ⟨a2, e, heq⟩ | hrr
      · exact Or.inl ⟨s1, o, a2, e, heq, rfl, rfl, rfl, rfl⟩
      · exact Or.inr ⟨hrr.1, Or.inr hrr.2⟩

theorem nextStep_cases (s : Fibers) (o : List Nat) :
    (∃ s2 o2 a2 e, s.nextStep o = Fibers.catchPath s2 o2 a2 e ∧
       s2.isFailed = s.isFailed ∧ s2.isResolvedOrRejected = s.isResolvedOrRejected ∧
       s2.promiseState = s.promiseState ∧ s2.errorHandler = s.errorHandler) ∨
    ((s.nextStep o).caught = none ∧
      ((s.nextStep o).out = .sdone ∨ (∃ v, (s.nextStep o).out = .yieldv v) ∨
       (s.nextStep o).out = .sstuck)) := by
  rcases hr : Fibers.refill s.concurrency s.runningPool s.generator none s.ranCount
    with ⟨run1, gen1, a1, ran1, err1⟩
  cases err1 with
  | some e0 =>
    rw [nextStep_spec_throw s o run1 gen1 a1 ran1 e0 hr]
    exact Or.inl ⟨_, o, a1, e0, rfl, by simp, by simp, by simp, by simp⟩
  | none =>
    rw [nextStep_spec_ok s o run1 gen1 a1 ran1 hr]
    rcases nextStepCore_cases _ o a1 with ⟨s2, o2, a2, e, heq, f1, f2, f3, f4⟩ | hrr
    · refine Or.inl ⟨s2, o2, a2, e, heq, ?_, ?_, ?_, ?_⟩ <;> simp_all
    · exact Or.inr hrr

/-! ### State after the catch path, by handler decision -/

theorem catchPath_sthrew_state (s : Fibers) (o : List Nat) (a : Option FiberTask)
    (e e' : JsError) (hout : (Fibers.catchPath s o a e).out = .sthrew e')
    (hflag : s.isResolvedOrRejected = false) :
    e' = e ∧ (Fibers.catchPath s o a e).s.isFailed = true ∧
    (Fibers.catchPath s o a e).s.promiseState = settleReject e s.promiseState ∧
    (Fibers.catchPath s o a e).s.TornDown := by
  rcases hd : s.handlerDecision e with _ | _ | _
  · rw [catchPath_eq_stop s o a e hd] at hout; simp at hout
  · rw [catchPath_eq_skip s o a e hd] at hout; simp at hout
  · rw [catchPath_eq_dflt s o a e hd] at hout ⊢
    obtain rfl : e' = e := by
      have : StepOutcome.sthrew e = .sthrew e' := by simpa using hout
      injection this with h0
      exact h0.symm
    refine ⟨rfl, by simp, by simp [raise_promise_of_not_flag s e' hflag], ?_⟩
    unfold Fibers.TornDown
    cases a <;> simp [Fibers.eraseActive]

theorem catchPath_sdone_state (s : Fibers) (o : List Nat) (a : Option FiberTask)
    (e : JsError) (hd : s.handlerDecision e = .stop)
    (hflag : s.isResolvedOrRejected = false) :
    (Fibers.catchPath s o a e).out = .sdone ∧
    (Fibers.catchPath s o a e).s.isFailed = s.isFailed ∧
    (Fibers.catchPath s o a e).s.promiseState = settleResolve s.promiseState ∧
    (Fibers.catchPath s o a e).s.TornDown := by
  rw [catchPath_eq_stop s o a e hd]
  refine ⟨rfl, by simp, ?_, ?_⟩
  · simp [resolveIfNot_promise_of_not_flag (s.eraseActive a) (by simp [hflag])]
  · unfold Fibers.TornDown
    simp

theorem nextStep_srecurse_fields (s : Fibers) (o : List Nat)
    (hout : (s.nextStep o).out = .srecurse) :
    (s.nextStep o).s.isFailed = s.isFailed ∧
    (s.nextStep o).s.isResolvedOrRejected = s.isResolvedOrRejected ∧
    (s.nextStep o).s.promiseState = s.promiseState ∧
    (s.nextStep o).s.errorHandler = s.errorHandler := by
  rcases nextStep_cases s o with ⟨s2, o2, a2, e, heq, f1, f2, f3, f4⟩ | ⟨_, hcs⟩
  · rw [heq] at hout ⊢
    rcases hd : s2.handlerDecision e with _ | _ | _
    · rw [catchPath_eq_stop s2 o2 a2 e hd] at hout; simp at hout
    · rw [catchPath_eq_skip s2 o2 a2 e hd]
      exact ⟨by simp [f1], by simp [f2], by simp [f3], by simp [f4]⟩
    · rw [catchPath_eq_dflt s2 o2 a2 e hd] at hout; simp at hout
  · rcases hcs with h1 | ⟨v, h1⟩ | h1 <;> rw [hout] at h1 <;> cases h1

theorem nextStep_sthrew_state (s : Fibers) (o : List Nat) (e : JsError)
    (hout : (s.nextStep o).out = .sthrew e)
    (hflag : s.isResolvedOrRejected = false) :
    (s.nextStep o).s.isFailed = true ∧
    (s.nextStep o).s.promiseState = settleReject e s.promiseState ∧
    (s.nextStep o).s.TornDown := by
  rcases nextStep_cases s o with ⟨s2, o2, a2, e0, heq, f1, f2, f3, f4⟩ | ⟨_, hcs⟩
  · rw [heq] at hout ⊢
    obtain ⟨rfl, h1, h2, h3⟩ :=
      catchPath_sthrew_state s2 o2 a2 e0 e hout (f2.trans hflag)
    exact ⟨h1, by rw [h2, f3], h3⟩
  · rcases hcs with h1 | ⟨v, h1⟩ | h1 <;> rw [hout] at h1 <;> cases h1

theorem nextFuel_nthrew_state (fuel : Nat) :
    ∀ (s : Fibers) (o : List Nat) (e : JsError),
      (Fibers.nextFuel fuel s o).out = .nthrew e →
      s.isResolvedOrRejected = false →
      (Fibers.nextFuel fuel s o).s.isFailed = true ∧
      (Fibers.nextFuel fuel s o).s.promiseState = settleReject e s.promiseState ∧
      (Fibers.nextFuel fuel s o).s.TornDown := by
  induction fuel with
  | zero => intro s o e h hflag; simp [Fibers.nextFuel] at h
  | succ n ih =>
    intro s o e h hflag
    simp only [Fibers.nextFuel] at h ⊢
    rcases hout : (s.nextStep o).out with v | _ | e0 | _ | _ <;>
      simp only [hout] at h ⊢
    · cases h
    · cases h
    · obtain rfl : e0 = e := by injection h
      exact nextStep_sthrew_state s o e0 hout hflag
    · have hfields := nextStep_srecurse_fields s o hout
      have hrec := ih (s.nextStep o).s (s.nextStep o).oracle e h
        (hfields.2.1.trans hflag)
      exact ⟨hrec.1, by rw [hrec.2.1, hfields.2.2.1], hrec.2.2⟩
    · cases h

/-! ### Pool bookkeeping cleanup across one pass (for the error paths) -/

theorem catchPath_active (s : Fibers) (o : List Nat) (a : Option FiberTask)
    (e : JsError) : (Fibers.catchPath s o a e).active = a := by
  unfold Fibers.catchPath; split <;> rfl

/-- Cleanup facts about the result of one pass of the `next()` body: whenever
the pass returns (its `finally` ran, i.e. the finished-pool spin did not hang),
the pass's `activeTask` is in neither pool afterwards; and on the two
terminating outcomes `sdone`/`sthrew` both pools have been cleared by the
teardown. -/
def StepCleanupSpec (r : StepRes) : Prop :=
  (r.out ≠ .sstuck → ∀ t, r.active = some t →
    t ∉ r.s.runningPool ∧ t ∉ r.s.finishedPool) ∧
  (r.out = .sdone → r.s.runningPool = [] ∧ r.s.finishedPool = []) ∧
  (∀ e2, r.out = .sthrew e2 → r.s.runningPool = [] ∧ r.s.finishedPool = [])

theorem not_mem_erase_self (l : List FiberTask) (t : FiberTask) (h : l.Nodup) :
    t ∉ l.erase t := by
  intro hmem
  exact ((h.mem_erase_iff).mp hmem).1 rfl

theorem eraseActive_some_not_mem (s : Fibers) (t : FiberTask)
    (hrn : s.runningPool.Nodup) (hfn : s.finishedPool.Nodup) :
    t ∉ (s.eraseActive (some t)).runningPool ∧
    t ∉ (s.eraseActive (some t)).finishedPool := by
  unfold Fibers.eraseActive
  exact ⟨not_mem_erase_self _ t hrn, not_mem_erase_self _ t hfn⟩

theorem catchPath_cleanup (s : Fibers) (o : List Nat) (a : Option FiberTask)
    (e : JsError) (hrn : s.runningPool.Nodup) (hfn : s.finishedPool.Nodup) :
    StepCleanupSpec (Fibers.catchPath s o a e) := by
  unfold StepCleanupSpec
  rcases hd : s.handlerDecision e with _ | _ | _
  · rw [catchPath_eq_stop s o a e hd]
    refine ⟨?_, ?_, ?_⟩
    · intro _ t _; exact ⟨by simp, by simp⟩
    · intro _; exact ⟨by simp, by simp⟩
    · intro e2 h2; simp at h2
  · rw [catchPath_eq_skip s o a e hd]
    refine ⟨?_, ?_, ?_⟩
    · intro _ t ht
      obtain rfl : a = some t := ht
      exact eraseActive_some_not_mem s t hrn hfn
    · intro h2; simp at h2
    · intro e2 h2; simp at h2
  · rw [catchPath_eq_dflt s o a e hd]
    refine ⟨?_, ?_, ?_⟩
    · intro _ t _
      constructor <;> cases a <;> simp [Fibers.eraseActive]
    · intro h2; simp at h2
    · intro e2 _
      constructor <;> cases a <;> simp [Fibers.eraseActive]

theorem afterRace_cleanup (s : Fibers) (o : List Nat) (a : Option FiberTask)
    (oc : TaskOutcome) (hrn : s.runningPool.Nodup) (hfn : s.finishedPool.Nodup) :
    StepCleanupSpec (Fibers.afterRace s o a oc) := by
  cases oc with
  | rejectedWith e => exact catchPath_cleanup s o a e hrn hfn
  | fulfilled v =>
    rcases hf : s.finishedPool with _ | ⟨t, rest⟩
    · rw [afterRace_fulfilled_nil s o a v hf]
      unfold StepCleanupSpec
      refine ⟨?_, ?_, ?_⟩
      · intro hne; exact absurd rfl hne
      · intro h2; simp at h2
      · intro e2 h2; simp at h2
    · rw [afterRace_fulfilled_claim s o a v t rest hf]
      rcases ho : t.outcome with w | e
      · simp only [ho]
        unfold StepCleanupSpec
        refine ⟨?_, ?_, ?_⟩
        · intro _ t2 ht2
          obtain rfl : t = t2 := by injection ht2
          exact eraseActive_some_not_mem s t hrn hfn
        · intro h2; simp at h2
        · intro e2 h2; simp at h2
      · simp only [ho]
        exact catchPath_cleanup s o (some t) e hrn hfn

theorem nextStepCore_cleanup (s1 : Fibers) (o : List Nat) (a : Option FiberTask)
    (hrn : s1.runningPool.Nodup) (hfn : s1.finishedPool.Nodup) :
    StepCleanupSpec (Fibers.nextStepCore s1 o a) := by
  cases he : s1.runningPool.isEmpty with
  | true =>
    rw [nextStepCore_empty s1 o a (by simpa using he)]
    unfold StepCleanupSpec
    refine ⟨?_, ?_, ?_⟩
    · intro _ t _; exact ⟨by simp, by simp⟩
    · intro _; exact ⟨by simp, by simp⟩
    · intro e2 h2; simp at h2
  | false =>
    rcases hff : s1.runningPool.find? (fun t => s1.settledIds.contains t.tid) with _ | t0
    · rw [nextStepCore_pick s1 o a he hff]
      generalize (s1.runningPool.getD ((o.headD 0) % s1.runningPool.length) defaultTask) = tp
      exact afterRace_cleanup _ o.tail a tp.outcome (by simpa using hrn)
        (by simpa using addSet_nodup s1.finishedPool tp hfn)
    · rw [nextStepCore_found s1 o a t0 he hff]
      exact afterRace_cleanup s1 o a t0.outcome hrn hfn

theorem nextStep_cleanup (s : Fibers) (o : List Nat)
    (hrn : s.runningPool.Nodup) (hfn : s.finishedPool.Nodup) :
    StepCleanupSpec (s.nextStep o) := by
  rcases hr : Fibers.refill s.concurrency s.runningPool s.generator none s.ranCount
    with ⟨run1, gen1, a1, ran1, err1⟩
  have hrun1 : run1.Nodup := by
    have := refill_pool_nodup s.concurrency s.generator s.runningPool none s.ranCount hrn
    rw [hr] at this
    exact this
  cases err1 with
  | some e =>
    rw [nextStep_spec_throw s o run1 gen1 a1 ran1 e hr]
    exact catchPath_cleanup _ o a1 e (by simpa using hrun1) (by simpa using hfn)
  | none =>
    rw [nextStep_spec_ok s o run1 gen1 a1 ran1 hr]
    exact nextStepCore_cleanup _ o a1 (by simpa using hrun1) (by simpa using hfn)

/-! ### Operation-level invariants -/

theorem throwMethod_fst (s : Fibers) (e : JsError) :
    (s.throwMethod e).1 = (s.raiseErrorAndCleanup e).1 := by
  unfold Fibers.throwMethod
  rcases s.raiseErrorAndCleanup e with ⟨s1, _ | other⟩ <;> rfl

theorem applyOp_frozen (s : Fibers) (op : Op) (h : s.isResolvedOrRejected = true) :
    (s.applyOp op).isResolvedOrRejected = true ∧
    (s.applyOp op).promiseState = s.promiseState := by
  cases op with
  | advance fuel oracle => exact nextFuel_frozen fuel s oracle h
  | setConc v =>
    by_cases hv : v ≤ 0 <;>
      simp [Fibers.applyOp, Fibers.setConcurrency, hv, h]
  | setHandler hh => simp [Fibers.applyOp, Fibers.setErrorHandler, h]
  | startOp =>
    simp only [Fibers.applyOp]
    unfold Fibers.start
    split
    · exact ⟨h, rfl⟩
    · split
      · exact ⟨h, rfl⟩
      · split
        · exact ⟨h, rfl⟩
        · exact ⟨by simpa using h, by simp⟩
  | stopOp => simp [Fibers.applyOp, Fibers.stop, h]
  | openIter =>
    simp only [Fibers.applyOp]
    unfold Fibers.openIterator
    split
    · exact ⟨h, rfl⟩
    · exact ⟨by simpa using h, by simp⟩
  | throwOp e =>
    simp only [Fibers.applyOp]
    rw [throwMethod_fst]
    exact ⟨raise_flag s e, (raise_promise_of_flag s e h).1⟩
  | returnOp =>
    simp only [Fibers.applyOp]
    unfold Fibers.returnMethod
    exact ⟨resolveIfNot_flag s, resolveIfNot_promise_of_flag s h⟩
  | dispose => exact ⟨by simpa [Fibers.applyOp] using h, by simp [Fibers.applyOp]⟩

theorem applyOp_completed (s : Fibers) (op : Op) (h : s.isCompleted = true) :
    (s.applyOp op).isCompleted = true := by
  cases op with
  | advance fuel oracle => exact nextFuel_completed fuel s oracle h
  | setConc v =>
    by_cases hv : v ≤ 0 <;>
      simp [Fibers.applyOp, Fibers.setConcurrency, hv, h]
  | setHandler hh => simp [Fibers.applyOp, Fibers.setErrorHandler, h]
  | startOp =>
    simp only [Fibers.applyOp]
    unfold Fibers.start
    split
    · exact h
    · split
      · exact h
      · split
        · exact h
        · simpa using h
  | stopOp => simp [Fibers.applyOp, Fibers.stop, h]
  | openIter =>
    simp only [Fibers.applyOp]
    unfold Fibers.openIterator
    split
    · exact h
    · simpa using h
  | throwOp e =>
    simp only [Fibers.applyOp]
    rw [throwMethod_fst]
    exact raise_isCompleted s e
  | returnOp =>
    simp only [Fibers.applyOp]
    unfold Fibers.returnMethod
    exact resolveIfNot_isCompleted s
  | dispose => simp [Fibers.applyOp]

theorem applyOp_pool_bound (s : Fibers) (op : Op)
    (hinv : s.runningPool.length ≤ s.concurrency)
    (hset : ∀ v : Int, op = Op.setConc v → (s.runningPool.length : Int) ≤ v) :
    (s.applyOp op).runningPool.length ≤ (s.applyOp op).concurrency := by
  cases op with
  | advance fuel oracle => exact nextFuel_pool_le fuel s oracle hinv
  | setConc v =>
    by_cases hv : v ≤ 0
    · simpa [Fibers.applyOp, Fibers.setConcurrency, hv] using hinv
    · have hge := hset v rfl
      simp only [Fibers.applyOp, Fibers.setConcurrency, if_neg hv]
      simp
      omega
  | setHandler hh => simpa [Fibers.applyOp, Fibers.setErrorHandler] using hinv
  | startOp =>
    simp only [Fibers.applyOp]
    unfold Fibers.start
    split
    · exact hinv
    · split
      · exact hinv
      · split
        · exact hinv
        · simpa using hinv
  | stopOp => simpa [Fibers.applyOp, Fibers.stop] using hinv
  | openIter =>
    simp only [Fibers.applyOp]
    unfold Fibers.openIterator
    split
    · exact hinv
    · simpa using hinv
  | throwOp e =>
    simp only [Fibers.applyOp]
    rw [throwMethod_fst]
    simp
  | returnOp =>
    simp only [Fibers.applyOp]
    unfold Fibers.returnMethod
    simp
  | dispose => simp [Fibers.applyOp]

theorem sequenceList_of_le (start endv step : Int) (hstep : 0 < step)
    (h : endv ≤ start) : Fibers.sequenceList start endv step hstep = [] := by
  unfold Fibers.sequenceList
  rw [dif_neg (by omega)]

theorem tornDown_reopen_nextStep (s : Fibers) (o : List Nat) (h : s.TornDown) :
    Fibers.nextStep { s with isGeneratorConsuming := true } o =
      ⟨s, o, .sdone, none, none⟩ := by
  cases s with
  | mk rp fp gen sids ic igc abr abj isf irr ps conc eh rt rc dr =>
    simp only [Fibers.TornDown] at h
    obtain ⟨h1, h2, h3, h4, h5, h6, h7, h8⟩ := h
    subst h1; subst h2; subst h3; subst h4; subst h5; subst h6; subst h7; subst h8
    rw [nextStep_spec_ok _ o [] [] none rc
      (by simpa using refill_gen_nil conc [] none rc)]
    rw [nextStepCore_empty _ o none rfl]
    unfold Fibers.eraseActive Fibers.resolveIfNotFailedAndCleanup Fibers.cleanup
    simp

/-! ### Concrete engines and traces for the closed counterexamples/witnesses -/

def cT1 : FiberTask := ⟨1, .rejectedWith (.genericError 1)⟩

def cT2 : FiberTask := ⟨2, .fulfilled 5⟩

def c1open : Fibers := ((Fibers.mkFibers 1 [.returns ⟨1, .fulfilled 0⟩]).openIterator).1

def c2start : Fibers :=
  match Fibers.newFibers 3 [.returns ⟨1, .fulfilled 10⟩, .returns ⟨2, .fulfilled 20⟩,
      .returns ⟨3, .fulfilled 30⟩, .returns ⟨4, .fulfilled 40⟩] with
  | .ok s => s
  | .error _ => Fibers.mkFibers 1 []

def c2mid : Fibers := (c2start.applyOp (.advance 2 [0])).applyOp (.setConc 1)

def c4start : Fibers := Fibers.mkFibers 1 [.returns ⟨1, .rejectedWith (.genericError 7)⟩]

def c5start : Fibers :=
  { Fibers.mkFibers 1 [.returns ⟨1, .rejectedWith (.genericError 3)⟩,
      .returns ⟨2, .fulfilled 9⟩] with
    errorHandler := some (fun _ : JsError => HandlerResult.stop) }

def c6start : Fibers :=
  { Fibers.mkFibers 2 [.returns cT1, .returns cT2] with
    errorHandler := some (fun _ : JsError => HandlerResult.skip) }

def c8start : Fibers :=
  { Fibers.mkFibers 1 [.returns ⟨1, .rejectedWith (.genericError 2)⟩] with
    rejectThrows := some (.genericError 1) }

def completedEngine : Fibers := (Fibers.nextFuel 1 (Fibers.mkFibers 2 []) []).s

/-! ### The claims -/

/-- C1 (counterexample): against the claim, a `start()` call made while a
foreground iteration session is open IS rejected synchronously — `start()`
throws the `FiberError` at the call site (first conjunct) — and it leaves the
engine state unchanged (second conjunct), so the session's next step behaves
exactly as if the call had not happened rather than failing with a usage
error. -/
theorem C1_counterexample :
    (c1open.start).2 =
      .threw (.fiberError "Cannot start while iterating over fibers") ∧
    (c1open.start).1 = c1open := ⟨by decide, rfl⟩

/-- C1 (amended): while a foreground session is open
(`_isGeneratorConsuming = true`), a call to `start()` throws
`FiberError("Cannot start while iterating over fibers")` synchronously and
leaves the engine unchanged; the conflict surfaces at the `start()` call
itself, not on the session's next step. -/
theorem C1_amended (s : Fibers) (h : s.isGeneratorConsuming = true) :
    s.start =
      (s, .threw (.fiberError "Cannot start while iterating over fibers")) := by
  unfold Fibers.start
  rw [if_pos (by simp [h])]

/-- C1 witness: the amended theorem evaluated on a concrete open session. -/
theorem C1_witness :
    c1open.start =
      (c1open, .threw (.fiberError "Cannot start while iterating over fibers")) :=
  C1_amended c1open (by decide)

/-- C2 (counterexample): the claim fails on the code.  Concrete run: an engine
over four tasks with concurrency 3 performs one advance (the refill fills the
pool to three units, one is claimed and removed, two remain in flight), then
the consumer lowers `concurrency` to 1.  At this observation point the Running
Pool holds 2 > 1 units: in-flight units are never cancelled, so a mid-run
decrease of the level violates `size(RunningPool) ≤ concurrency`. -/
theorem C2_counterexample :
    0 < c2mid.concurrency ∧ c2mid.concurrency < c2mid.runningPool.length := by
  decide

/-- C2 (amended): `size(RunningPool) ≤ concurrency` holds at construction and
is preserved by every advance step (the refill loop starts new units only
while the pool is below the level read at step entry) and by every other
engine operation, provided no concurrency-setter call sets the level below the
current in-flight count.  A mid-run decrease below that count transiently
violates the bound (see the counterexample) and drains without new refills. -/
theorem C2_amended :
    (∀ (c : Nat) (g : List FactoryBehavior),
      (Fibers.mkFibers c g).runningPool.length ≤ (Fibers.mkFibers c g).concurrency) ∧
    (∀ (s : Fibers) (op : Op),
      s.runningPool.length ≤ s.concurrency →
      (∀ v : Int, op = Op.setConc v → (s.runningPool.length : Int) ≤ v) →
      (s.applyOp op).runningPool.length ≤ (s.applyOp op).concurrency) :=
  ⟨fun c g => by simp [Fibers.mkFibers], fun s op h1 h2 => applyOp_pool_bound s op h1 h2⟩

/-- C2 witness: the preserved bound evaluated on a concrete engine and a
concrete advance operation. -/
theorem C2_witness :
    (c2start.applyOp (.advance 2 [0])).runningPool.length ≤
      (c2start.applyOp (.advance 2 [0])).concurrency :=
  C2_amended.2 c2start (.advance 2 [0]) (by decide) (by intro v hv; cases hv)

/-- C3: once the Lifecycle Handle has been settled (`_isResolvedOrRejected`
set by the first resolve or reject), every further engine operation — advance
steps under any scheduler oracle and fuel, both setters, `start`/`stop`,
opening a session, the generator protocol's `throw`/`return` and disposal —
keeps the guard flag set and leaves the handle's outcome unchanged: both
settlement routines are guarded by the flag, so every subsequent settlement
attempt on any path is a no-op. -/
theorem C3_settle_once (s : Fibers) (op : Op) (h : s.isResolvedOrRejected = true) :
    (s.applyOp op).isResolvedOrRejected = true ∧
    (s.applyOp op).promiseState = s.promiseState :=
  applyOp_frozen s op h

/-- C3 witness: a further `return()` on a concrete settled engine changes
nothing about the handle. -/
theorem C3_witness :
    (completedEngine.applyOp .returnOp).isResolvedOrRejected = true ∧
    (completedEngine.applyOp .returnOp).promiseState = completedEngine.promiseState :=
  C3_settle_once completedEngine .returnOp (by decide)

/-- C4: if a full `next()` call (any scheduler oracle, any fuel) propagates an
error `e` to its consumer — which the code does exactly when no handler is
registered or the handler returned `'default'` — then, starting from an
engine whose handle is unsettled: the run is marked failed, the Lifecycle
Handle is rejected with the original error, teardown has run (both pools and
the work source cleared), and every further advance step is a no-op returning
done with the state unchanged, so no factory runs and items scheduled after
the failure point never run. -/
theorem C4_default_fails_run (s : Fibers) (fuel : Nat) (o : List Nat) (e : JsError)
    (hflag : s.isResolvedOrRejected = false) (hpend : s.promiseState = .pending)
    (ht : (Fibers.nextFuel fuel s o).out = .nthrew e) :
    (Fibers.nextFuel fuel s o).s.isFailed = true ∧
    (Fibers.nextFuel fuel s o).s.promiseState = .rejected e ∧
    (Fibers.nextFuel fuel s o).s.isCompleted = true ∧
    (Fibers.nextFuel fuel s o).s.runningPool = [] ∧
    (Fibers.nextFuel fuel s o).s.finishedPool = [] ∧
    (Fibers.nextFuel fuel s o).s.generator = [] ∧
    (∀ (f2 : Nat) (o2 : List Nat),
      Fibers.nextFuel (f2 + 1) (Fibers.nextFuel fuel s o).s o2 =
        ⟨(Fibers.nextFuel fuel s o).s, o2, .ndone⟩) := by
  obtain ⟨h1, h2, h3⟩ := nextFuel_nthrew_state fuel s o e ht hflag
  obtain ⟨td1, td2, td3, td4, td5, td6, td7, td8⟩ := h3
  refine ⟨h1, ?_, td1, td2, td3, td4, fun f2 o2 => tornDown_nextFuel _ o2 f2 ?_⟩
  · rw [h2, hpend]
    rfl
  · exact ⟨td1, td2, td3, td4, td5, td6, td7, td8⟩

/-- C4 witness: the default path on a concrete engine whose single task
rejects with `genericError 7` and which has no error handler. -/
theorem C4_witness :
    (Fibers.nextFuel 1 c4start []).s.isFailed = true ∧
    (Fibers.nextFuel 1 c4start []).s.promiseState = .rejected (.genericError 7) ∧
    (Fibers.nextFuel 1 c4start []).s.isCompleted = true ∧
    (Fibers.nextFuel 1 c4start []).s.runningPool = [] ∧
    (Fibers.nextFuel 1 c4start []).s.finishedPool = [] ∧
    (Fibers.nextFuel 1 c4start []).s.generator = [] ∧
    Fibers.nextFuel 1 (Fibers.nextFuel 1 c4start []).s [] =
      ⟨(Fibers.nextFuel 1 c4start []).s, [], .ndone⟩ := by
  have h := C4_default_fails_run c4start 1 [] (.genericError 7)
    (by decide) (by decide) (by decide)
  exact ⟨h.1, h.2.1, h.2.2.1, h.2.2.2.1, h.2.2.2.2.1, h.2.2.2.2.2.1,
    h.2.2.2.2.2.2 0 []⟩

/-- C5: when an advance pass catches error `e` and the registered handler
returns `'stop'`, then starting from an unsettled, not-yet-failed engine the
pass is a graceful end-of-sequence: the step returns done, `failed` stays
false, the Lifecycle Handle resolves successfully, and teardown runs — both
pools cleared and the work source disposed, so no further items are pulled. -/
theorem C5_stop_graceful (s : Fibers) (o : List Nat) (H : JsError → HandlerResult)
    (e : JsError) (hH : s.errorHandler = some H) (hstop : H e = .stop)
    (hc : (s.nextStep o).caught = some e)
    (hflag : s.isResolvedOrRejected = false) (hpend : s.promiseState = .pending)
    (hfail : s.isFailed = false) :
    (s.nextStep o).out = .sdone ∧
    (s.nextStep o).s.isFailed = false ∧
    (s.nextStep o).s.promiseState = .resolved ∧
    (s.nextStep o).s.isCompleted = true ∧
    (s.nextStep o).s.runningPool = [] ∧
    (s.nextStep o).s.finishedPool = [] ∧
    (s.nextStep o).s.generator = [] := by
  rcases nextStep_cases s o with ⟨s2, o2, a2, e0, heq, f1, f2, f3, f4⟩ | ⟨hcn, _⟩
  · have he0 : e0 = e := by
      rw [heq, catchPath_caught] at hc
      injection hc
    subst he0
    have hd : s2.handlerDecision e0 = .stop := by
      unfold Fibers.handlerDecision
      rw [f4, hH]
      exact hstop
    obtain ⟨g1, g2, g3, g4⟩ := catchPath_sdone_state s2 o2 a2 e0 hd (f2.trans hflag)
    obtain ⟨td1, td2, td3, td4, td5, td6, td7, td8⟩ := g4
    rw [heq]
    refine ⟨g1, ?_, ?_, td1, td2, td3, td4⟩
    · rw [g2, f1, hfail]
    · rw [g3, f3, hpend]
      rfl
  · rw [hcn] at hc
    exact Option.noConfusion hc

/-- C5 witness: the stop path on a concrete engine (concurrency 1, first task
rejects, handler returns `'stop'`). -/
theorem C5_witness :
    (c5start.nextStep []).out = .sdone ∧
    (c5start.nextStep []).s.isFailed = false ∧
    (c5start.nextStep []).s.promiseState = .resolved ∧
    (c5start.nextStep []).s.isCompleted = true ∧
    (c5start.nextStep []).s.runningPool = [] ∧
    (c5start.nextStep []).s.finishedPool = [] ∧
    (c5start.nextStep []).s.generator = [] :=
  C5_stop_graceful c5start [] (fun _ : JsError => HandlerResult.stop)
    (.genericError 3) rfl rfl (by decide) (by decide) (by decide) (by decide)

/-- C6 (counterexample): with concurrency 2 and a `'skip'` handler, the refill
instantiates `cT1, cT2` (so the pass's `activeTask` is `cT2`), and the race
over the pool throws `cT1`'s rejection.  The `finally` block removes
`activeTask` — the healthy unit `cT2` — from both pools, while the errored
unit `cT1` remains in the Running Pool and in the Finished Pool after the
pass: the errored unit's bookkeeping is NOT cleaned up on this error path. -/
theorem C6_counterexample :
    (c6start.nextStep [0]).caught = some (.genericError 1) ∧
    cT1 ∈ (c6start.nextStep [0]).s.runningPool ∧
    cT1 ∈ (c6start.nextStep [0]).s.finishedPool := by decide

/-- C6 (amended): what the code guarantees on every returning pass (pools
assumed duplicate-free, as construction keeps them): the unit whose
bookkeeping is cleaned up is the pass's `activeTask` — the unit last
instantiated or claimed by that pass, not necessarily the errored unit — and
on the terminating outcomes (graceful done, or default-path throw) teardown
clears both pools entirely; see `StepCleanupSpec`. -/
theorem C6_amended (s : Fibers) (o : List Nat)
    (hrn : s.runningPool.Nodup) (hfn : s.finishedPool.Nodup) :
    StepCleanupSpec (s.nextStep o) :=
  nextStep_cleanup s o hrn hfn

/-- C6 witness: on the counterexample engine, the amended guarantee — the
pass's `activeTask` `cT2` is removed from both pools. -/
theorem C6_witness :
    cT2 ∉ (c6start.nextStep [0]).s.runningPool ∧
    cT2 ∉ (c6start.nextStep [0]).s.finishedPool :=
  (C6_amended c6start [0] (by decide) (by decide)).1 (by decide) cT2 (by decide)

/-- C7: `completed` is monotone under every engine operation (never reset to
false); and on a completed, torn-down engine — the state `_cleanup` leaves
behind, with both pools and the work source cleared — every further advance is
a no-op returning done with the state unchanged (so no factory runs and the
pools stay torn down), `start()` returns a resolved no-op without throwing or
launching anything, and re-opening a foreground session succeeds without
throwing, with its first step returning done and restoring the exact
pre-session state (again running no factory). -/
theorem C7_completed_final :
    (∀ (s : Fibers) (op : Op), s.isCompleted = true →
      (s.applyOp op).isCompleted = true) ∧
    (∀ (s : Fibers) (f : Nat) (o : List Nat), s.TornDown →
      Fibers.nextFuel (f + 1) s o = ⟨s, o, .ndone⟩) ∧
    (∀ s : Fibers, s.TornDown → s.start = (s, .resolvedNoop)) ∧
    (∀ (s : Fibers) (f : Nat) (o : List Nat), s.TornDown →
      s.openIterator = ({ s with isGeneratorConsuming := true }, none) ∧
      Fibers.nextFuel (f + 1) { s with isGeneratorConsuming := true } o =
        ⟨s, o, .ndone⟩) := by
  refine ⟨applyOp_completed, fun s f o h => tornDown_nextFuel s o f h, ?_, ?_⟩
  · intro s h
    obtain ⟨h1, _, _, _, _, h6, _, _⟩ := h
    unfold Fibers.start
    rw [if_neg (by simp [h6]), if_pos (by simp [h1])]
  · intro s f o h
    constructor
    · unfold Fibers.openIterator
      rw [if_neg (by simp [h.2.2.2.2.2.2.2])]
    · simp only [Fibers.nextFuel]
      rw [tornDown_reopen_nextStep s o h]

/-- C7 witness: the conjuncts evaluated on a concrete completed engine. -/
theorem C7_witness :
    (completedEngine.applyOp (.setConc 5)).isCompleted = true ∧
    Fibers.nextFuel 1 completedEngine [] = ⟨completedEngine, [], .ndone⟩ ∧
    completedEngine.start = (completedEngine, .resolvedNoop) ∧
    completedEngine.openIterator =
      ({ completedEngine with isGeneratorConsuming := true }, none) ∧
    Fibers.nextFuel 1 { completedEngine with isGeneratorConsuming := true } [] =
      ⟨completedEngine, [], .ndone⟩ := by
  have h := C7_completed_final
  have htd : completedEngine.TornDown := by decide
  exact ⟨h.1 completedEngine (.setConc 5) (by decide),
    h.2.1 completedEngine 0 [] htd, h.2.2.1 completedEngine htd,
    (h.2.2.2 completedEngine 0 [] htd).1, (h.2.2.2 completedEngine 0 [] htd).2⟩

/-- C8 (counterexample): on the advance-step path the claim fails.
`c8start`'s stored reject callback throws `genericError 1` (a listener
throwing synchronously) while the engine is failing with the work error
`genericError 2`.  The settlement routine builds
`AggregateError([genericError 1, genericError 2])`, but `next()` calls
`_raiseErrorAndCleanup` without `await`: the step surfaces only the original
error to the consumer (first conjunct), and the aggregate is left as the
rejection of a discarded internal promise (second conjunct) — the listener's
error never reaches the consumer on this path. -/
theorem C8_counterexample :
    (c8start.nextStep [0]).out = .sthrew (.genericError 2) ∧
    (c8start.nextStep [0]).s.discardedRejections =
      [.aggregateError (.genericError 1) (.genericError 2)] := by decide

/-- C8 (amended): both errors are preserved, aggregated as
`AggregateError([other, e])`; on the generator-protocol `throw(e)` path, where
the settlement routine IS awaited, that aggregate — carrying both errors — is
exactly what the consumer receives, and the run is marked failed.  On the
internal advance-step path the consumer receives only the original error (see
the counterexample). -/
theorem C8_amended (s : Fibers) (e other : JsError)
    (hflag : s.isResolvedOrRejected = false) (ho : s.rejectThrows = some other) :
    (s.throwMethod e).2 = .aggregateError other e ∧
    (s.throwMethod e).1.isFailed = true := by
  unfold Fibers.throwMethod Fibers.raiseErrorAndCleanup
  dsimp only
  rw [if_neg (by simp [hflag])]
  simp [ho]

/-- C8 witness: the amended theorem on the concrete engine with a throwing
reject callback. -/
theorem C8_witness :
    (c8start.throwMethod (.genericError 2)).2 =
      .aggregateError (.genericError 1) (.genericError 2) ∧
    (c8start.throwMethod (.genericError 2)).1.isFailed = true :=
  C8_amended c8start (.genericError 2) (.genericError 1) (by decide) (by decide)

/-- C9: `delay(ms, token)` with a token already cancelled at the call rejects
immediately with the dedicated cancellation error and never starts a timer or
attaches a listener (later timer/abort events change nothing); cancelling
mid-wait rejects with the cancellation error and releases the timer and the
listener; elapsing resolves and releases the timer — so on settlement by
either path the timer resource is released. -/
theorem C9_delay_cancellation (ms : Nat) :
    (Fibers.delay ms true).result = some (.aborted Fibers.createAbortError) ∧
    (Fibers.delay ms true).timerActive = false ∧
    (Fibers.delay ms true).listenerAttached = false ∧
    Fibers.delayElapse (Fibers.delay ms true) = Fibers.delay ms true ∧
    Fibers.delayAbort (Fibers.delay ms true) = Fibers.delay ms true ∧
    (Fibers.delayAbort (Fibers.delay ms false)).result =
      some (.aborted Fibers.createAbortError) ∧
    (Fibers.delayAbort (Fibers.delay ms false)).timerActive = false ∧
    (Fibers.delayAbort (Fibers.delay ms false)).listenerAttached = false ∧
    (Fibers.delayElapse (Fibers.delay ms false)).result = some .elapsed ∧
    (Fibers.delayElapse (Fibers.delay ms false)).timerActive = false ∧
    (Fibers.delayElapse (Fibers.delay ms false)).listenerAttached = false := by
  simp [Fibers.delay, Fibers.delayElapse, Fibers.delayAbort, settleDelay]

/-- C10: an engine whose work source yields no items — both
`Fibers.for(c, start, end, step, factory)` with `start ≥ end` and positive
step, and `Fibers.forEach(c, [], factory)` construct exactly that engine —
has its very first advance step return done without adding anything to either
pool; the Lifecycle Handle resolves successfully, `completed` becomes true,
and `failed` stays false. -/
theorem C10_empty_source (c start endv step : Int) (factory : Int → FactoryBehavior)
    (hc : 0 < c) (hstep : 0 < step) (hr : endv ≤ start) (f : Nat) (o : List Nat) :
    Fibers.forRange c start endv step hstep factory =
      .ok (Fibers.mkFibers c.toNat []) ∧
    Fibers.forEach c ([] : List Int) factory = .ok (Fibers.mkFibers c.toNat []) ∧
    (Fibers.mkFibers c.toNat []).runningPool = [] ∧
    (Fibers.mkFibers c.toNat []).finishedPool = [] ∧
    (Fibers.mkFibers c.toNat []).isFailed = false ∧
    Fibers.nextFuel (f + 1) (Fibers.mkFibers c.toNat []) o =
      ⟨{ Fibers.mkFibers c.toNat [] with isCompleted := true, isResolvedOrRejected := true, promiseState := .resolved }, o, .ndone⟩ ∧
    ({ Fibers.mkFibers c.toNat [] with isCompleted := true, isResolvedOrRejected := true, promiseState := .resolved } : Fibers).isFailed = false := by
  have hseq : Fibers.sequenceList start endv step hstep = [] :=
    sequenceList_of_le _ _ _ _ hr
  have hcc : ¬ c ≤ 0 := by omega
  refine ⟨?_, ?_, rfl, rfl, rfl, ?_, rfl⟩
  · unfold Fibers.forRange Fibers.newFibers Fibers.setConcurrency
    rw [hseq]
    simp [Fibers.mkFibers, hcc]
  · unfold Fibers.forEach Fibers.newFibers Fibers.setConcurrency
    simp [Fibers.mkFibers, hcc]
  · simp only [Fibers.nextFuel]
    rw [nextStep_spec_ok (Fibers.mkFibers c.toNat []) o [] [] none 0
      (by simpa using refill_gen_nil c.toNat [] none 0)]
    rw [nextStepCore_empty _ o none rfl]
    unfold Fibers.eraseActive Fibers.resolveIfNotFailedAndCleanup Fibers.cleanup
      Fibers.mkFibers
    simp [settleResolve]

/-- C10 witness: the empty-range engine (`for(2, 5, 3, 1, …)`) evaluated
concretely. -/
theorem C10_witness :
    Fibers.forRange 2 5 3 1 (by decide)
        (fun _ => FactoryBehavior.returns ⟨0, .fulfilled 0⟩) =
      .ok (Fibers.mkFibers (2 : Int).toNat []) ∧
    Fibers.nextFuel 1 (Fibers.mkFibers (2 : Int).toNat []) [] =
      ⟨{ Fibers.mkFibers (2 : Int).toNat [] with isCompleted := true, isResolvedOrRejected := true, promiseState := .resolved }, [], .ndone⟩ := by
  have h := C10_empty_source 2 5 3 1
    (fun _ => FactoryBehavior.returns ⟨0, .fulfilled 0⟩)
    (by decide) (by decide) (by decide) 0 []
  exact ⟨h.1, h.2.2.2.2.2.1⟩

end TsFibers
